import Mathlib

/-!
Verification development for the ai-demo repository (TypeScript).

The repository is a set of numbered example modules over the Vercel AI SDK.
The specified "core" is the bounded tool-calling loop driven by
`generateText` with `maxSteps` (Modules Ten and Eleven).  The loop body
itself lives in the third-party SDK, not in the repository's sources, so it
is modelled here from the specification; the tool registries (the zod
parameter schemas and executors of `addNumbers` and `getWeather`), the
chat-history handling of Module Four, the similarity ranking of Module
Eight and the entry-script API-key guard are embedded directly from the
source files.

JavaScript numbers are modelled as rationals (ℚ); JSON values carry
numbers, strings and flat objects, which covers every value the embedded
tools produce or consume.
-/

/-- A JSON-like value as exchanged between the loop, the model and the
tool executors.  `obj` is a flat field list, enough for the weather
result object returned by `getWeather`. -/
inductive JsonVal where
  | num (q : ℚ)
  | str (s : String)
  | obj (fields : List (String × JsonVal))
  | null

/-- Argument objects supplied by the model for a tool call: a JSON object
as a field list. -/
abbrev Args := List (String × JsonVal)

/-- The argument types occurring in the repository's zod schemas:
`z.number()` and `z.string()`. -/
inductive JType where
  | numT
  | strT
deriving DecidableEq

/-- Whether a JSON value conforms to a zod primitive type. -/
def jsonHasType : JsonVal → JType → Bool
  | JsonVal.num _, JType.numT => true
  | JsonVal.str _, JType.strT => true
  | _, _ => false

/-- Validation of model-supplied arguments against a tool's parameter
schema: every declared field must be present with the declared type
(zod object semantics: missing or mistyped required fields fail;
unknown extra keys are stripped, not rejected). -/
def validateArgs (schema : List (String × JType)) (args : Args) : Bool :=
  schema.all (fun p =>
    match args.lookup p.1 with
    | some v => jsonHasType v p.2
    | none => false)

/-- Tool Descriptor: a named capability the model may invoke, with a
parameter schema used to validate model-proposed arguments before
execution, and an executor from validated arguments to a result.
Executors are total up to `Option`: `none` signals arguments outside the
executor's pattern (unreachable after validation). -/
structure ToolDescriptor where
  name : String
  description : String
  parameters : List (String × JType)
  execute : Args → Option JsonVal

/-- One requested tool invocation, as returned by the model: a call
identifier, the tool name and the argument object. -/
structure ToolCallReq where
  id : String
  name : String
  args : Args

/-- Message: one turn in a conversation.  A `toolResult` is tagged with
the originating tool-call identifier, preserving the pairing of results
to calls. -/
inductive Message where
  | user (content : String)
  | assistant (content : String) (toolCalls : List ToolCallReq)
  | toolResult (toolCallId : String) (result : JsonVal)

/-- Step Result: the outcome of one loop iteration as returned by the
language-model endpoint. -/
structure StepResult where
  responseText : String
  requestedToolCalls : List ToolCallReq

/-- A Step Result is final exactly when the model requested no further
tool calls. -/
def StepResult.isFinal (r : StepResult) : Bool :=
  r.requestedToolCalls.isEmpty

/-- Errors a single step can raise while dispatching requested tool
calls. -/
inductive StepError where
  | unknownTool (name : String)
  | invalidArguments (name : String)
deriving DecidableEq

/-- Terminal outcome of a run.  `done` and `budgetExhausted` are the two
successful terminal states; `failed` carries the step error and the step
number at which it occurred. -/
inductive Outcome where
  | done (finalText : String) (stepsTaken : Nat)
  | budgetExhausted (partialText : String) (stepsTaken : Nat)
  | failed (e : StepError) (stepsTaken : Nat)
deriving DecidableEq

/-- The full observable result of a run: terminal outcome, final message
history, the trace of tool executions actually performed (step number,
tool name, arguments), and the number of language-model endpoint calls
issued. -/
structure RunResult where
  outcome : Outcome
  messages : List Message
  execTrace : List (Nat × String × Args)
  endpointCalls : Nat

/-- Look a tool up by name in the registry. -/
def findTool (tools : List ToolDescriptor) (n : String) : Option ToolDescriptor :=
  tools.find? (fun d => d.name == n)

/-- Modelled from the spec: phase one of dispatching a step's requested
tool calls — look every requested name up in the registry, in the order
returned by the model; the first unknown name fails the step with
`UnknownToolError`. -/
def lookupCalls (tools : List ToolDescriptor) :
    List ToolCallReq → Except StepError (List (ToolDescriptor × ToolCallReq))
  | [] => Except.ok []
  | c :: cs =>
    match findTool tools c.name with
    | none => Except.error (StepError.unknownTool c.name)
    | some d =>
      match lookupCalls tools cs with
      | Except.error e => Except.error e
      | Except.ok rest => Except.ok ((d, c) :: rest)

/-- Modelled from the spec: phase two — validate every resolved call's
arguments against its tool's parameter schema; the first invalid call
fails the step with `InvalidArgumentsError`. -/
def validateCalls : List (ToolDescriptor × ToolCallReq) → Option StepError
  | [] => none
  | (d, c) :: rest =>
    if validateArgs d.parameters c.args then validateCalls rest
    else some (StepError.invalidArguments c.name)

/-- Result value recorded for one executed call (`null` if the executor's
pattern did not apply, which validation rules out). -/
def execResult (d : ToolDescriptor) (c : ToolCallReq) : JsonVal :=
  (d.execute c.args).getD JsonVal.null

/-- Modelled from the spec: the body of the bounded tool-calling loop.
`fuel` is the remaining step budget, `steps` the steps taken so far,
`calls` the endpoint calls issued so far.  Each iteration sends the full
history to the endpoint; an empty `requestedToolCalls` list terminates
the run successfully with the response text; otherwise all requested
calls are resolved (looked up, then validated) before any executor runs
— per the spec, executions within a step are independent and a step that
fails resolution performs zero executions — then every executor runs and
its result is appended as a tool-result message, and the loop continues.
Exhausted fuel terminates with `budgetExhausted` carrying the last
response text. -/
def runLoop (endpoint : List Message → StepResult) (tools : List ToolDescriptor) :
    Nat → Nat → Nat → List Message → List (Nat × String × Args) → String → RunResult
  | 0, steps, calls, msgs, trace, lastText =>
    { outcome := Outcome.budgetExhausted lastText steps
      messages := msgs, execTrace := trace, endpointCalls := calls }
  | fuel + 1, steps, calls, msgs, trace, _ =>
    let r := endpoint msgs
    if r.requestedToolCalls.isEmpty then
      { outcome := Outcome.done r.responseText (steps + 1)
        messages := msgs ++ [Message.assistant r.responseText []]
        execTrace := trace, endpointCalls := calls + 1 }
    else
      let msgs1 := msgs ++ [Message.assistant r.responseText r.requestedToolCalls]
      match lookupCalls tools r.requestedToolCalls with
      | Except.error e =>
        { outcome := Outcome.failed e (steps + 1)
          messages := msgs1, execTrace := trace, endpointCalls := calls + 1 }
      | Except.ok resolved =>
        match validateCalls resolved with
        | some e =>
          { outcome := Outcome.failed e (steps + 1)
            messages := msgs1, execTrace := trace, endpointCalls := calls + 1 }
        | none =>
          let results := resolved.map (fun p => Message.toolResult p.2.id (execResult p.1 p.2))
          let newTrace := resolved.map (fun p => (steps + 1, p.2.name, p.2.args))
          runLoop endpoint tools fuel (steps + 1) (calls + 1)
            (msgs1 ++ results) (trace ++ newTrace) r.responseText

/-- Modelled from the spec: `run(initialPrompt, tools, maxSteps)` — seed
the history with the user prompt and run the loop with `maxSteps` as the
step budget. -/
def run (endpoint : List Message → StepResult) (tools : List ToolDescriptor)
    (initialPrompt : String) (maxSteps : Nat) : RunResult :=
  runLoop endpoint tools maxSteps 0 0 [Message.user initialPrompt] [] ""

/-! ## The tool registries of Modules Nine, Ten and Eleven

Embedded from `src/unnamed/part_001`: the `addNumbers` tool (zod schema
`\x7b num1: z.number(), num2: z.number() \x7d`, executor
`(\x7b num1, num2 \x7d) => num1 + num2`) and the `getWeather` tool (zod
schema `\x7b latitude: z.number(), longitude: z.number(), city: z.string() \x7d`,
executor fetching current weather from the open-meteo API).  The network
fetch of `getWeather` is parametrised by an oracle giving temperature,
weather code and humidity as functions of latitude and longitude. -/

/-- Executor of the `addNumbers` tool: read `num1` and `num2` from the
argument object and return their sum. -/
def addNumbersExecute (args : Args) : Option JsonVal :=
  match args.lookup "num1", args.lookup "num2" with
  | some (JsonVal.num a), some (JsonVal.num b) => some (JsonVal.num (a + b))
  | _, _ => none

/-- The `addNumbers` Tool Descriptor of Modules Nine, Ten and Eleven. -/
def addNumbers : ToolDescriptor :=
  { name := "addNumbers"
    description := "Add two numbers together"
    parameters := [("num1", JType.numT), ("num2", JType.numT)]
    execute := addNumbersExecute }

/-- A weather oracle standing in for the open-meteo HTTP endpoint:
current temperature, weather code and relative humidity as functions of
latitude and longitude. -/
structure WeatherOracle where
  temperature : ℚ → ℚ → ℚ
  weathercode : ℚ → ℚ → ℚ
  humidity : ℚ → ℚ → ℚ

/-- Executor of the `getWeather` tool: read `latitude`, `longitude` and
`city` from the argument object, query the weather oracle and return the
object with `temperature`, `weatherCode`, `humidity` and `city` fields
that the source builds from the fetched data. -/
def getWeatherExecute (w : WeatherOracle) (args : Args) : Option JsonVal :=
  match args.lookup "latitude", args.lookup "longitude", args.lookup "city" with
  | some (JsonVal.num la), some (JsonVal.num lo), some (JsonVal.str city) =>
    some (JsonVal.obj
      [("temperature", JsonVal.num (w.temperature la lo)),
       ("weatherCode", JsonVal.num (w.weathercode la lo)),
       ("humidity", JsonVal.num (w.humidity la lo)),
       ("city", JsonVal.str city)])
  | _, _, _ => none

/-- The `getWeather` Tool Descriptor of Module Eleven, parametrised by
the weather oracle. -/
def getWeather (w : WeatherOracle) : ToolDescriptor :=
  { name := "getWeather"
    description := "Get the current weather at a location"
    parameters := [("latitude", JType.numT), ("longitude", JType.numT), ("city", JType.strT)]
    execute := getWeatherExecute w }

/-- The tool registry of Module Ten: `addNumbers` alone. -/
def moduleTenTools : List ToolDescriptor := [addNumbers]

/-- The tool registry of Module Eleven: `addNumbers` and `getWeather`. -/
def moduleElevenTools (w : WeatherOracle) : List ToolDescriptor :=
  [addNumbers, getWeather w]

/-- The user prompt of Module Eleven. -/
def moduleElevenPrompt : String :=
  "Get the weather in Toronto and Campbell River BC, then add them together."

/-! ## Endpoint stubs used to instantiate the loop theorems -/

/-- An endpoint stub that always answers with final text and no tool
calls. -/
def alwaysFinalEndpoint (_ : List Message) : StepResult :=
  { responseText := "The answer is 18.", requestedToolCalls := [] }

/-! ## Generic loop lemmas -/

theorem runLoop_endpointCalls_le (endpoint : List Message → StepResult)
    (tools : List ToolDescriptor) :
    ∀ (fuel steps calls : Nat) (msgs : List Message)
      (trace : List (Nat × String × Args)) (lastText : String),
      (runLoop endpoint tools fuel steps calls msgs trace lastText).endpointCalls ≤
        calls + fuel := by
  intro fuel
  induction fuel with
  | zero =>
    intro steps calls msgs trace lastText
    simp [runLoop]
  | succ n ih =>
    intro steps calls msgs trace lastText
    rw [runLoop]
    dsimp only
    split
    · simp
    · split
      · simp
      · split
        · simp
        · exact le_trans (ih _ _ _ _ _) (by omega)

theorem runLoop_final_step (endpoint : List Message → StepResult)
    (tools : List ToolDescriptor) (fuel steps calls : Nat) (msgs : List Message)
    (trace : List (Nat × String × Args)) (lastText : String)
    (h : (endpoint msgs).requestedToolCalls = []) :
    runLoop endpoint tools (fuel + 1) steps calls msgs trace lastText =
      { outcome := Outcome.done (endpoint msgs).responseText (steps + 1)
        messages := msgs ++ [Message.assistant (endpoint msgs).responseText []]
        execTrace := trace
        endpointCalls := calls + 1 } := by
  rw [runLoop]
  simp [h]

/-- C1: for every run of the bounded tool-calling loop with
`maxSteps ≥ 1`, the number of language-model endpoint calls performed is
at most `maxSteps`: the step budget is a hard ceiling on sequential model
calls. -/
theorem run_endpointCalls_le_maxSteps (endpoint : List Message → StepResult)
    (tools : List ToolDescriptor) (initialPrompt : String) (maxSteps : Nat)
    (h : 1 ≤ maxSteps) :
    (run endpoint tools initialPrompt maxSteps).endpointCalls ≤ maxSteps := by
  have hb := runLoop_endpointCalls_le endpoint tools maxSteps 0 0
    [Message.user initialPrompt] [] ""
  simpa [run] using hb

theorem run_endpointCalls_le_maxSteps_witness :
    (run alwaysFinalEndpoint moduleTenTools "What is 13 + 5?" 2).endpointCalls ≤ 2 :=
  run_endpointCalls_le_maxSteps alwaysFinalEndpoint moduleTenTools
    "What is 13 + 5?" 2 (by decide)

/-- C2: whenever an endpoint call returns a Step Result with an empty
`requestedToolCalls` list, the loop appends one assistant message with
the response text and terminates successfully on that step regardless of
remaining budget; in particular, if the first endpoint call returns no
tool calls, the run terminates after exactly one endpoint call with
`isFinal = true`. -/
theorem run_final_on_empty_toolcalls (endpoint : List Message → StepResult)
    (tools : List ToolDescriptor) :
    (∀ (fuel steps calls : Nat) (msgs : List Message)
       (trace : List (Nat × String × Args)) (lastText : String),
       (endpoint msgs).requestedToolCalls = [] →
       runLoop endpoint tools (fuel + 1) steps calls msgs trace lastText =
         { outcome := Outcome.done (endpoint msgs).responseText (steps + 1)
           messages := msgs ++ [Message.assistant (endpoint msgs).responseText []]
           execTrace := trace
           endpointCalls := calls + 1 }) ∧
    (∀ (initialPrompt : String) (maxSteps : Nat), 1 ≤ maxSteps →
       (endpoint [Message.user initialPrompt]).requestedToolCalls = [] →
       (run endpoint tools initialPrompt maxSteps).endpointCalls = 1 ∧
       (run endpoint tools initialPrompt maxSteps).outcome =
         Outcome.done (endpoint [Message.user initialPrompt]).responseText 1 ∧
       (endpoint [Message.user initialPrompt]).isFinal = true) := by
  constructor
  · intro fuel steps calls msgs trace lastText h
    exact runLoop_final_step endpoint tools fuel steps calls msgs trace lastText h
  · intro initialPrompt maxSteps hm h
    obtain ⟨k, rfl⟩ : ∃ k, maxSteps = k + 1 := ⟨maxSteps - 1, by omega⟩
    have hs := runLoop_final_step endpoint tools k 0 0
      [Message.user initialPrompt] [] "" h
    refine ⟨?_, ?_, ?_⟩
    · rw [run, hs]
    · rw [run, hs]
    · simp [StepResult.isFinal, h]

theorem run_final_on_empty_toolcalls_witness :
    (run alwaysFinalEndpoint moduleTenTools "Say hello" 5).endpointCalls = 1 ∧
    (run alwaysFinalEndpoint moduleTenTools "Say hello" 5).outcome =
      Outcome.done "The answer is 18." 1 ∧
    (alwaysFinalEndpoint [Message.user "Say hello"]).isFinal = true :=
  (run_final_on_empty_toolcalls alwaysFinalEndpoint moduleTenTools).2
    "Say hello" 5 (by decide) (by rfl)

/-! ## Dispatch-phase lemmas -/

theorem lookupCalls_error_of_mem_unknown (tools : List ToolDescriptor) :
    ∀ (cs : List ToolCallReq) (c : ToolCallReq), c ∈ cs →
      findTool tools c.name = none →
      ∃ n, findTool tools n = none ∧
        lookupCalls tools cs = Except.error (StepError.unknownTool n) := by
  intro cs
  induction cs with
  | nil => intro c hc; cases hc
  | cons c0 cs ih =>
    intro c hc hunk
    by_cases h0 : findTool tools c0.name = none
    · refine ⟨c0.name, h0, ?_⟩
      rw [lookupCalls, h0]
    · have hmem : c ∈ cs := by
        rcases List.mem_cons.mp hc with h | h
        · exact absurd (h ▸ hunk) h0
        · exact h
      obtain ⟨n, hn, herr⟩ := ih c hmem hunk
      obtain ⟨d, hd⟩ := Option.ne_none_iff_exists.mp h0
      refine ⟨n, hn, ?_⟩
      rw [lookupCalls, ← hd, herr]

theorem lookupCalls_ok_of_all_found (tools : List ToolDescriptor) :
    ∀ (cs : List ToolCallReq),
      (∀ c ∈ cs, (findTool tools c.name).isSome) →
      ∃ res, lookupCalls tools cs = Except.ok res := by
  intro cs
  induction cs with
  | nil => intro _; exact ⟨[], rfl⟩
  | cons c0 cs ih =>
    intro hall
    obtain ⟨d0, hd0⟩ := Option.isSome_iff_exists.mp (hall c0 (List.mem_cons_self c0 cs))
    obtain ⟨res, hres⟩ := ih (fun c hc => hall c (List.mem_cons_of_mem c0 hc))
    refine ⟨(d0, c0) :: res, ?_⟩
    rw [lookupCalls, hd0, hres]

theorem lookupCalls_ok_mem (tools : List ToolDescriptor) :
    ∀ (cs : List ToolCallReq) (res : List (ToolDescriptor × ToolCallReq))
      (c : ToolCallReq) (d : ToolDescriptor),
      lookupCalls tools cs = Except.ok res → c ∈ cs →
      findTool tools c.name = some d → (d, c) ∈ res := by
  intro cs
  induction cs with
  | nil => intro res c d _ hc; cases hc
  | cons c0 cs ih =>
    intro res c d hok hc hd
    rw [lookupCalls] at hok
    cases hfind : findTool tools c0.name with
    | none => rw [hfind] at hok; cases hok
    | some d0 =>
      rw [hfind] at hok
      cases hrest : lookupCalls tools cs with
      | error e => rw [hrest] at hok; cases hok
      | ok rest =>
        rw [hrest] at hok
        cases hok
        rcases List.mem_cons.mp hc with h | h
        · subst h
          rw [hd] at hfind
          cases hfind
          exact List.mem_cons_self _ _
        · exact List.mem_cons_of_mem _ (ih rest c d hrest h hd)

theorem validateCalls_some_of_mem_invalid :
    ∀ (res : List (ToolDescriptor × ToolCallReq)) (d : ToolDescriptor)
      (c : ToolCallReq), (d, c) ∈ res →
      validateArgs d.parameters c.args = false →
      ∃ n, validateCalls res = some (StepError.invalidArguments n) := by
  intro res
  induction res with
  | nil => intro d c hc; cases hc
  | cons p res ih =>
    intro d c hc hinv
    by_cases hv : validateArgs p.1.parameters p.2.args = true
    · have hmem : (d, c) ∈ res := by
        rcases List.mem_cons.mp hc with h | h
        · rw [← h] at hv; rw [hinv] at hv; cases hv
        · exact h
      obtain ⟨n, hn⟩ := ih d c hmem hinv
      refine ⟨n, ?_⟩
      rw [validateCalls.eq_def]
      cases p
      simp only
      rw [hv, hn]
      simp
    · refine ⟨p.2.name, ?_⟩
      rw [validateCalls.eq_def]
      cases p
      simp only
      rw [Bool.not_eq_true] at hv
      rw [hv]
      simp

/-- C3: whenever the model requests a tool name not present in the tool
registry on a step, the run fails with `UnknownToolError` naming an
unregistered tool, and zero tool executions are performed for that step
(the execution trace is unchanged): the core neither guesses a tool nor
silently skips the call. -/
theorem run_unknown_tool_fails (endpoint : List Message → StepResult)
    (tools : List ToolDescriptor) (fuel steps calls : Nat) (msgs : List Message)
    (trace : List (Nat × String × Args)) (lastText : String) (c : ToolCallReq)
    (hc : c ∈ (endpoint msgs).requestedToolCalls)
    (hunk : findTool tools c.name = none) :
    ∃ n, findTool tools n = none ∧
      (runLoop endpoint tools (fuel + 1) steps calls msgs trace lastText).outcome =
        Outcome.failed (StepError.unknownTool n) (steps + 1) ∧
      (runLoop endpoint tools (fuel + 1) steps calls msgs trace lastText).execTrace =
        trace := by
  obtain ⟨n, hn, herr⟩ :=
    lookupCalls_error_of_mem_unknown tools (endpoint msgs).requestedToolCalls c hc hunk
  have hne : (endpoint msgs).requestedToolCalls.isEmpty = false := by
    cases hh : (endpoint msgs).requestedToolCalls with
    | nil => rw [hh] at hc; cases hc
    | cons a l => simp [List.isEmpty]
  refine ⟨n, hn, ?_, ?_⟩ <;>
    · rw [runLoop]
      simp only [hne, Bool.false_eq_true, if_false, herr]

/-- An endpoint stub whose first response requests a tool name absent
from every registry in the repository. -/
def unknownToolEndpoint (_ : List Message) : StepResult :=
  { responseText := ""
    requestedToolCalls :=
      [{ id := "call_1", name := "frobnicate", args := [] }] }

theorem run_unknown_tool_fails_witness :
    ∃ n, findTool moduleTenTools n = none ∧
      (runLoop unknownToolEndpoint moduleTenTools 1 0 0
        [Message.user "hello"] [] "").outcome =
        Outcome.failed (StepError.unknownTool n) 1 ∧
      (runLoop unknownToolEndpoint moduleTenTools 1 0 0
        [Message.user "hello"] [] "").execTrace = [] :=
  run_unknown_tool_fails unknownToolEndpoint moduleTenTools 0 0 0
    [Message.user "hello"] [] ""
    { id := "call_1", name := "frobnicate", args := [] }
    (by simp [unknownToolEndpoint]) (by rfl)

/-- C4: whenever every tool name requested on a step is registered but
some requested call's model-supplied arguments fail the registered
tool's parameter schema, the run fails with `InvalidArgumentsError`, and
the execution trace is unchanged for that step — so no executor, in
particular not the offending call's, is ever invoked. -/
theorem run_invalid_args_fails (endpoint : List Message → StepResult)
    (tools : List ToolDescriptor) (fuel steps calls : Nat) (msgs : List Message)
    (trace : List (Nat × String × Args)) (lastText : String) (c : ToolCallReq)
    (d : ToolDescriptor)
    (hall : ∀ c' ∈ (endpoint msgs).requestedToolCalls, (findTool tools c'.name).isSome)
    (hc : c ∈ (endpoint msgs).requestedToolCalls)
    (hd : findTool tools c.name = some d)
    (hinv : validateArgs d.parameters c.args = false) :
    ∃ n, (runLoop endpoint tools (fuel + 1) steps calls msgs trace lastText).outcome =
        Outcome.failed (StepError.invalidArguments n) (steps + 1) ∧
      (runLoop endpoint tools (fuel + 1) steps calls msgs trace lastText).execTrace =
        trace := by
  obtain ⟨res, hres⟩ :=
    lookupCalls_ok_of_all_found tools (endpoint msgs).requestedToolCalls hall
  have hpair := lookupCalls_ok_mem tools (endpoint msgs).requestedToolCalls res c d hres hc hd
  obtain ⟨n, hn⟩ := validateCalls_some_of_mem_invalid res d c hpair hinv
  have hne : (endpoint msgs).requestedToolCalls.isEmpty = false := by
    cases hh : (endpoint msgs).requestedToolCalls with
    | nil => rw [hh] at hc; cases hc
    | cons a l => simp [List.isEmpty]
  refine ⟨n, ?_, ?_⟩ <;>
    · rw [runLoop]
      simp only [hne, Bool.false_eq_true, if_false, hres, hn]

/-- An endpoint stub requesting `addNumbers` with a string where the
schema demands a number. -/
def invalidArgsEndpoint (_ : List Message) : StepResult :=
  { responseText := ""
    requestedToolCalls :=
      [{ id := "call_1", name := "addNumbers"
         args := [("num1", JsonVal.str "thirteen"), ("num2", JsonVal.num 5)] }] }

theorem run_invalid_args_fails_witness :
    ∃ n, (runLoop invalidArgsEndpoint moduleTenTools 1 0 0
        [Message.user "hello"] [] "").outcome =
        Outcome.failed (StepError.invalidArguments n) 1 ∧
      (runLoop invalidArgsEndpoint moduleTenTools 1 0 0
        [Message.user "hello"] [] "").execTrace = [] :=
  run_invalid_args_fails invalidArgsEndpoint moduleTenTools 0 0 0
    [Message.user "hello"] [] ""
    { id := "call_1", name := "addNumbers"
      args := [("num1", JsonVal.str "thirteen"), ("num2", JsonVal.num 5)] }
    addNumbers
    (by intro c' hc'
        simp only [invalidArgsEndpoint, List.mem_singleton] at hc'
        subst hc'
        rfl)
    (by simp [invalidArgsEndpoint]) (by rfl) (by rfl)

/-! ## Budget exhaustion -/

theorem runLoop_budget_exhausted (endpoint : List Message → StepResult)
    (tools : List ToolDescriptor)
    (H : ∀ msgs : List Message,
      (endpoint msgs).requestedToolCalls ≠ [] ∧
      ∃ res, lookupCalls tools (endpoint msgs).requestedToolCalls = Except.ok res ∧
        validateCalls res = none) :
    ∀ (fuel steps calls : Nat) (msgs : List Message)
      (trace : List (Nat × String × Args)) (lastText : String),
      ∃ p, (runLoop endpoint tools fuel steps calls msgs trace lastText).outcome =
          Outcome.budgetExhausted p (steps + fuel) ∧
        (runLoop endpoint tools fuel steps calls msgs trace lastText).endpointCalls =
          calls + fuel := by
  intro fuel
  induction fuel with
  | zero =>
    intro steps calls msgs trace lastText
    exact ⟨lastText, rfl, rfl⟩
  | succ n ih =>
    intro steps calls msgs trace lastText
    obtain ⟨hne, res, hres, hval⟩ := H msgs
    have hne' : (endpoint msgs).requestedToolCalls.isEmpty = false := by
      cases hh : (endpoint msgs).requestedToolCalls with
      | nil => exact absurd hh hne
      | cons a l => simp [List.isEmpty]
    obtain ⟨p, hp, hcalls⟩ := ih (steps + 1) (calls + 1)
      (msgs ++ [Message.assistant (endpoint msgs).responseText
          (endpoint msgs).requestedToolCalls] ++
        res.map (fun q => Message.toolResult q.2.id (execResult q.1 q.2)))
      (trace ++ res.map (fun q => (steps + 1, q.2.name, q.2.args)))
      (endpoint msgs).responseText
    refine ⟨p, ?_, ?_⟩ <;>
      · rw [runLoop]
        simp only [hne', Bool.false_eq_true, if_false, hres, hval]
        first
        | rw [hp]; congr 1; omega
        | rw [hcalls]; omega

/-- C5: whenever the endpoint never produces a final answer (every
response requests a non-empty list of registered, validly-argumented
tool calls), a run with `maxSteps ≥ 1` ends after exactly `maxSteps`
endpoint calls with the distinct terminal outcome `budgetExhausted` —
never `done` — alongside whatever partial text was produced. -/
theorem run_budget_exhausted (endpoint : List Message → StepResult)
    (tools : List ToolDescriptor) (initialPrompt : String) (maxSteps : Nat)
    (hm : 1 ≤ maxSteps)
    (H : ∀ msgs : List Message,
      (endpoint msgs).requestedToolCalls ≠ [] ∧
      ∃ res, lookupCalls tools (endpoint msgs).requestedToolCalls = Except.ok res ∧
        validateCalls res = none) :
    ∃ p, (run endpoint tools initialPrompt maxSteps).outcome =
        Outcome.budgetExhausted p maxSteps ∧
      (run endpoint tools initialPrompt maxSteps).endpointCalls = maxSteps ∧
      ∀ t n, (run endpoint tools initialPrompt maxSteps).outcome ≠ Outcome.done t n := by
  obtain ⟨p, hp, hcalls⟩ := runLoop_budget_exhausted endpoint tools H maxSteps 0 0
    [Message.user initialPrompt] [] ""
  rw [Nat.zero_add] at hp hcalls
  refine ⟨p, hp, hcalls, ?_⟩
  intro t n
  show (runLoop endpoint tools maxSteps 0 0 [Message.user initialPrompt] [] "").outcome ≠
    Outcome.done t n
  rw [hp]
  intro hcontra
  cases hcontra

/-- An endpoint stub that always requests one valid `addNumbers` call
and never produces a final answer. -/
def alwaysToolEndpoint (_ : List Message) : StepResult :=
  { responseText := ""
    requestedToolCalls :=
      [{ id := "call_1", name := "addNumbers"
         args := [("num1", JsonVal.num 13), ("num2", JsonVal.num 5)] }] }

theorem run_budget_exhausted_witness :
    ∃ p, (run alwaysToolEndpoint moduleTenTools "What is 13 + 5?" 2).outcome =
        Outcome.budgetExhausted p 2 ∧
      (run alwaysToolEndpoint moduleTenTools "What is 13 + 5?" 2).endpointCalls = 2 ∧
      ∀ t n, (run alwaysToolEndpoint moduleTenTools "What is 13 + 5?" 2).outcome ≠
        Outcome.done t n :=
  run_budget_exhausted alwaysToolEndpoint moduleTenTools "What is 13 + 5?" 2
    (by decide)
    (fun _ => ⟨by simp [alwaysToolEndpoint], ⟨_, rfl, rfl⟩⟩)

/-! ## The Module Eleven scenario -/

/-- The number of completed model responses already in the history: the
count of assistant messages, used by the scenario stub to decide which
step it is answering. -/
def assistantCount (msgs : List Message) : Nat :=
  msgs.countP fun m =>
    match m with
    | Message.assistant _ _ => true
    | _ => false

/-- The temperatures carried by the tool-result messages of the history,
in order of appearance. -/
def extractTemps (msgs : List Message) : List ℚ :=
  msgs.filterMap fun m =>
    match m with
    | Message.toolResult _ (JsonVal.obj fields) =>
      match fields.lookup "temperature" with
      | some (JsonVal.num t) => some t
      | _ => none
    | _ => none

/-- The weather oracle of the scenario: temperature equals the latitude
argument, weather code 0, humidity 50. -/
def scenarioOracle : WeatherOracle :=
  { temperature := fun la _ => la
    weathercode := fun _ _ => 0
    humidity := fun _ _ => 50 }

/-- The stub endpoint of the spec's concrete scenario: step 1 requests
two `getWeather` calls, step 2 requests one `addNumbers` call with the
two temperatures returned by the tool-result messages, step 3 returns
final text. -/
def moduleElevenStubEndpoint (msgs : List Message) : StepResult :=
  match assistantCount msgs with
  | 0 =>
    { responseText := ""
      requestedToolCalls :=
        [{ id := "call_w1", name := "getWeather"
           args := [("latitude", JsonVal.num 18), ("longitude", JsonVal.num (-79)),
                    ("city", JsonVal.str "Toronto")] },
         { id := "call_w2", name := "getWeather"
           args := [("latitude", JsonVal.num 12), ("longitude", JsonVal.num (-125)),
                    ("city", JsonVal.str "Campbell River BC")] }] }
  | 1 =>
    match extractTemps msgs with
    | [t1, t2] =>
      { responseText := ""
        requestedToolCalls :=
          [{ id := "call_add", name := "addNumbers"
             args := [("num1", JsonVal.num t1), ("num2", JsonVal.num t2)] }] }
    | _ => { responseText := "", requestedToolCalls := [] }
  | _ =>
    { responseText := "The temperatures add up to 30.", requestedToolCalls := [] }

/-- C6: the concrete scenario of Module Eleven — stub endpoint
requesting two `getWeather` calls on step 1, one `addNumbers` call with
the two returned temperatures on step 2, and final text on step 3 —
reports `stepsTaken = 3` (three endpoint calls) and returns the final
text produced on step 3. -/
theorem moduleEleven_scenario :
    (run moduleElevenStubEndpoint (moduleElevenTools scenarioOracle)
        moduleElevenPrompt 3).outcome =
      Outcome.done "The temperatures add up to 30." 3 ∧
    (run moduleElevenStubEndpoint (moduleElevenTools scenarioOracle)
        moduleElevenPrompt 3).endpointCalls = 3 := by
  constructor <;> decide

/-! ## Module Four: chat history

Embedded from `src/modules.ts` (ModuleFour): each iteration of the chat
loop reads one user input, pushes a user message, streams the assistant
response into `fullResponse`, and pushes one assistant message.  The
history array is only ever pushed to. -/

/-- One iteration of the Module Four chat loop: push the user message,
then push the assistant message holding the fully streamed response. -/
def moduleFourStep (msgs : List Message) (userInput fullResponse : String) :
    List Message :=
  msgs ++ [Message.user userInput, Message.assistant fullResponse []]

/-- A run of the Module Four chat loop over a list of
(user input, streamed assistant response) turns. -/
def moduleFourRun (msgs : List Message) : List (String × String) → List Message
  | [] => msgs
  | t :: ts => moduleFourRun (moduleFourStep msgs t.1 t.2) ts

theorem moduleFourRun_append (turns1 : List (String × String)) :
    ∀ (msgs : List Message) (turns2 : List (String × String)),
      moduleFourRun msgs (turns1 ++ turns2) =
        moduleFourRun (moduleFourRun msgs turns1) turns2 := by
  induction turns1 with
  | nil => intro msgs turns2; rfl
  | cons t ts ih =>
    intro msgs turns2
    rw [List.cons_append, moduleFourRun, moduleFourRun]
    exact ih _ turns2

theorem moduleFourRun_extends (turns : List (String × String)) :
    ∀ msgs : List Message, ∃ t, moduleFourRun msgs turns = msgs ++ t := by
  induction turns with
  | nil => intro msgs; exact ⟨[], (List.append_nil msgs).symm⟩
  | cons t ts ih =>
    intro msgs
    obtain ⟨u, hu⟩ := ih (moduleFourStep msgs t.1 t.2)
    refine ⟨[Message.user t.1, Message.assistant t.2 []] ++ u, ?_⟩
    rw [moduleFourRun, hu, moduleFourStep]
    rw [List.append_assoc]

/-- C7: the Module Four chat history is append-only — after any number
of further turns, the history at any earlier point of the session
persists unchanged as an initial segment of the later history: no
message is mutated in place and none are reordered. -/
theorem moduleFour_history_append_only (msgs : List Message)
    (turns : List (String × String)) (k : Nat) :
    ∃ t, moduleFourRun msgs turns =
      moduleFourRun msgs (turns.take k) ++ t := by
  obtain ⟨u, hu⟩ := moduleFourRun_extends (turns.drop k) (moduleFourRun msgs (turns.take k))
  refine ⟨u, ?_⟩
  rw [← List.take_append_drop k turns, moduleFourRun_append] at *
  rw [List.take_append_drop] at hu ⊢
  exact hu

/-! ## Module Eight: embedding search

Embedded from `src/modules.ts` (ModuleEight): six fixed values are
embedded, each is scored by cosine similarity against the search-term
embedding, and the scored entries are sorted by the comparator
`(a, b) => b.similarity - a.similarity`, i.e. by descending similarity.
The embeddings and the cosine computation come from the SDK and the
embedding model (out of scope per the spec), so the similarity score of
each value is a parameter here. -/

/-- One scored entry of the Module Eight vector database. -/
structure ScoredEntry where
  value : String
  similarity : ℚ

/-- The six fixed values of Module Eight. -/
def moduleEightValues : List String :=
  ["Apple", "Banana", "Mango", "Car", "Bicycle", "Motorcycle"]

/-- The scored entries: each value paired with its cosine similarity to
the search-term embedding (`sim` abstracts the embedding model and
cosine computation). -/
def moduleEightEntries (sim : String → ℚ) : List ScoredEntry :=
  moduleEightValues.map fun v => { value := v, similarity := sim v }

/-- Insertion into a descending-sorted list, modelling the comparator
`(a, b) => b.similarity - a.similarity`. -/
def insertDesc (x : ScoredEntry) : List ScoredEntry → List ScoredEntry
  | [] => [x]
  | y :: l => if y.similarity ≤ x.similarity then x :: y :: l else y :: insertDesc x l

/-- Sorting by descending similarity. -/
def sortDesc : List ScoredEntry → List ScoredEntry
  | [] => []
  | x :: l => insertDesc x (sortDesc l)

/-- The sorted entries Module Eight prints. -/
def moduleEightSorted (sim : String → ℚ) : List ScoredEntry :=
  sortDesc (moduleEightEntries sim)

theorem insertDesc_perm (x : ScoredEntry) :
    ∀ l : List ScoredEntry, List.Perm (insertDesc x l) (x :: l) := by
  intro l
  induction l with
  | nil => rfl
  | cons y l ih =>
    rw [insertDesc]
    split
    · rfl
    · exact List.Perm.trans (List.Perm.cons y ih) (List.Perm.swap x y l)

theorem sortDesc_perm :
    ∀ l : List ScoredEntry, List.Perm (sortDesc l) l := by
  intro l
  induction l with
  | nil => rfl
  | cons x l ih =>
    rw [sortDesc]
    exact List.Perm.trans (insertDesc_perm x (sortDesc l)) (List.Perm.cons x ih)

theorem insertDesc_sorted (x : ScoredEntry) :
    ∀ l : List ScoredEntry,
      List.Pairwise (fun a b => b.similarity ≤ a.similarity) l →
      List.Pairwise (fun a b => b.similarity ≤ a.similarity) (insertDesc x l) := by
  intro l
  induction l with
  | nil => intro _; exact List.pairwise_singleton _ x
  | cons y l ih =>
    intro hp
    rw [List.pairwise_cons] at hp
    rw [insertDesc]
    split
    · rename_i hle
      rw [List.pairwise_cons]
      refine ⟨?_, List.pairwise_cons.mpr hp⟩
      intro b hb
      rcases List.mem_cons.mp hb with h | h
      · rw [h]; exact hle
      · exact le_trans (hp.1 b h) hle
    · rename_i hgt
      rw [List.pairwise_cons]
      constructor
      · intro b hb
        have hperm := insertDesc_perm x l
        have hb' := (hperm.mem_iff).mp hb
        rcases List.mem_cons.mp hb' with h | h
        · rw [h]
          exact le_of_lt (lt_of_not_le hgt)
        · exact hp.1 b h
      · exact ih hp.2

theorem sortDesc_sorted :
    ∀ l : List ScoredEntry,
      List.Pairwise (fun a b => b.similarity ≤ a.similarity) (sortDesc l) := by
  intro l
  induction l with
  | nil => exact List.Pairwise.nil
  | cons x l ih => exact insertDesc_sorted x (sortDesc l) ih

/-- C8: for every assignment of cosine-similarity scores, the Module
Eight output is a ranking — a permutation of the six scored entries,
ordered by non-increasing similarity to the search term. -/
theorem moduleEight_ranking (sim : String → ℚ) :
    List.Perm (moduleEightSorted sim) (moduleEightEntries sim) ∧
    List.Pairwise (fun a b => b.similarity ≤ a.similarity) (moduleEightSorted sim) ∧
    (moduleEightSorted sim).length = 6 := by
  refine ⟨sortDesc_perm _, sortDesc_sorted _, ?_⟩
  show (sortDesc (moduleEightEntries sim)).length = 6
  rw [(sortDesc_perm (moduleEightEntries sim)).length_eq]
  rfl

/-! ## Module Nine: the addNumbers executor -/

/-- C9: the `addNumbers` executor returns exactly `num1 + num2`, and it
is commutative — swapping the two argument values produces the same
result. -/
theorem addNumbers_execute_add_comm (a b : ℚ) :
    addNumbersExecute [("num1", JsonVal.num a), ("num2", JsonVal.num b)] =
      some (JsonVal.num (a + b)) ∧
    addNumbersExecute [("num1", JsonVal.num a), ("num2", JsonVal.num b)] =
      addNumbersExecute [("num1", JsonVal.num b), ("num2", JsonVal.num a)] := by
  constructor
  · rfl
  · show some (JsonVal.num (a + b)) = some (JsonVal.num (b + a))
    rw [add_comm]

/-! ## The entry script

Embedded from `src/unnamed/part_000` (index.ts): after loading the
environment, the script exits with code 1 and an error message when
`process.env.OPENAI_API_KEY` is falsy (unset or empty), and otherwise
runs `main`, which invokes ModuleEleven (all other module invocations
are commented out). -/

/-- The process environment, reduced to the one variable the entry
script consults. -/
structure Env where
  openaiApiKey : Option String

/-- JavaScript truthiness of an optional environment variable: `none`
(undefined) and the empty string are falsy. -/
def jsTruthy : Option String → Bool
  | none => false
  | some s => !(s == "")

/-- The observable behaviour of the entry script. -/
inductive EntryResult where
  | exited (code : Nat) (errorMessage : String)
  | ran (invokedModules : List String)
deriving DecidableEq

/-- The entry script: guard on the API key, then run `main`, which
invokes ModuleEleven. -/
def indexMain (env : Env) : EntryResult :=
  if jsTruthy env.openaiApiKey then EntryResult.ran ["ModuleEleven"]
  else EntryResult.exited 1 "Error: OPENAI_API_KEY environment variable is not set."

/-- C10: when `OPENAI_API_KEY` is unset, the entry script prints the
error and exits with code 1, and no module — hence no endpoint call or
tool execution — is ever invoked. -/
theorem indexMain_exits_without_key (env : Env)
    (h : env.openaiApiKey = none) :
    indexMain env =
      EntryResult.exited 1 "Error: OPENAI_API_KEY environment variable is not set." ∧
    ∀ mods, indexMain env ≠ EntryResult.ran mods := by
  have hguard : jsTruthy env.openaiApiKey = false := by rw [h]; rfl
  constructor
  · rw [indexMain, hguard]
    simp
  · intro mods
    rw [indexMain, hguard]
    simp

theorem indexMain_exits_without_key_witness :
    indexMain { openaiApiKey := none } =
      EntryResult.exited 1 "Error: OPENAI_API_KEY environment variable is not set." ∧
    ∀ mods, indexMain { openaiApiKey := none } ≠ EntryResult.ran mods :=
  indexMain_exits_without_key { openaiApiKey := none } (by rfl)
